import Mathlib

set_option maxRecDepth 16384

/-!
Verification of the sift-waitlist email-to-structured-content pipeline.

Shallow embedding of `services/contentExtraction.js`
(`UniversalContentExtractionService`) and `services/emailProcessingService.js`
(`EmailProcessingService`).

The DOM produced by `cheerio.load` is modelled as a tree of element and text
nodes.  Element attributes carry only the fields the service reads
(`class`, `id`, `href`, `src`, `data-src`, `alt`, `title`, `width`,
`height`).  `width`/`height` are modelled as the parsed integer when the
attribute is present and numeric (the code only ever uses `parseInt` of
them).  Tag names are stored as parsed; the HTML parser lowercases tag
names, which matters for the literal `el.tagName !== 'IMG'` comparison in
the source and is kept verbatim here.

cheerio's `$('*').each` with in-place `.remove()` iterates a snapshot in
document order; removing an element only changes the text of its
*ancestors*, which were already visited, and detaches its descendants, so
each element is tested against its own (original) subtree.  A top-down
recursive prune therefore has the same semantics and is used below.

String lengths are modelled as character counts (JS counts UTF-16 units;
they agree outside astral-plane characters).  Wall-clock timestamps
(`publishDate`, `extractedAt`, `subscribedAt`, …) and the brand-color
regex scan (`extractBrandColors`, read by no claim) are outside the
embedding; the metadata record keeps the fields the claims mention.
-/

namespace Sift

/-- Attributes of a DOM element, restricted to those the service reads. -/
structure Attrs where
  className : String := ""
  idAttr : String := ""
  href : Option String := none
  src : Option String := none
  dataSrc : Option String := none
  alt : Option String := none
  titleAttr : Option String := none
  width : Option Int := none
  height : Option Int := none
  deriving Repr, DecidableEq

mutual
/-- A DOM node: a text node or an element with attributes and children. -/
inductive Node where
  | text : String → Node
  | elem : String → Attrs → NodeList → Node
  deriving Repr

/-- A list of sibling DOM nodes (children of an element, or document roots). -/
inductive NodeList where
  | nil : NodeList
  | cons : Node → NodeList → NodeList
  deriving Repr
end

mutual
/-- Structural equality test on nodes. -/
def Node.beq : Node → Node → Bool
  | .text s, .text t => s == t
  | .elem t1 a1 c1, .elem t2 a2 c2 => t1 == t2 && a1 == a2 && NodeList.beq c1 c2
  | _, _ => false

/-- Structural equality test on node lists. -/
def NodeList.beq : NodeList → NodeList → Bool
  | .nil, .nil => true
  | .cons n ns, .cons m ms => Node.beq n m && NodeList.beq ns ms
  | _, _ => false
end

mutual
/-- `$el.text()` for a single node: concatenated text of the subtree. -/
def nodeText : Node → String
  | .text s => s
  | .elem _ _ cs => listText cs

/-- Concatenated text of a forest, in document order. -/
def listText : NodeList → String
  | .nil => ""
  | .cons n ns => nodeText n ++ listText ns
end

mutual
/-- Number of `img` elements in the subtree of a node, the node included. -/
def nodeImgCount : Node → Nat
  | .text _ => 0
  | .elem t _ cs => (if t == "img" then 1 else 0) + listImgCount cs

/-- Number of `img` elements in a forest. -/
def listImgCount : NodeList → Nat
  | .nil => 0
  | .cons n ns => nodeImgCount n + listImgCount ns
end

/-- `$el.find('img').length` : `img` elements among the *descendants*. -/
def findImgCount : Node → Nat
  | .text _ => 0
  | .elem _ _ cs => listImgCount cs

/-- JS `\s` for the characters that occur in email text. -/
def isWs (c : Char) : Bool :=
  c == ' ' || c == '\n' || c == '\t' || c == '\r' || c == '\x0b' || c == '\x0c'

/-- Collapse runs of whitespace to a single space (JS `replace(/\s+/g,' ')`).
`afterWs` records whether the previous character was whitespace. -/
def collapseWsAux : List Char → Bool → List Char
  | [], _ => []
  | c :: cs, afterWs =>
    if isWs c then
      if afterWs then collapseWsAux cs true else ' ' :: collapseWsAux cs true
    else
      c :: collapseWsAux cs false

/-- Does `p` start the character list `s`? -/
def charsStartWith : List Char → List Char → Bool
  | [], _ => true
  | _ :: _, [] => false
  | p :: ps, c :: cs => p == c && charsStartWith ps cs

/-- Does `p` occur contiguously inside `s`? -/
def charsContain (p : List Char) : List Char → Bool
  | [] => charsStartWith p []
  | c :: cs => charsStartWith p (c :: cs) || charsContain p cs

/-- Case-sensitive substring test (JS `String.prototype.includes`). -/
def strContains (s pat : String) : Bool :=
  charsContain pat.toList s.toList

/-- JS `s.substring(0, n)`: the first `n` characters of `s` (all of `s`
when it is shorter). -/
def substrTo (s : String) (n : Nat) : String :=
  String.mk (s.toList.take n)

/-- JS `toLowerCase` (ASCII case mapping). -/
def strToLower (s : String) : String :=
  String.mk (s.toList.map Char.toLower)

/-- JS `trim`: strip leading and trailing whitespace. -/
def strTrim (s : String) : String :=
  String.mk ((s.toList.dropWhile isWs).reverse.dropWhile isWs).reverse

/-- JS `startsWith`. -/
def strStartsWith (s pat : String) : Bool :=
  charsStartWith pat.toList s.toList

/-- JS `split(c)` on a single-character separator, on character lists. -/
def splitChar (c : Char) : List Char → List (List Char)
  | [] => [[]]
  | x :: xs =>
    let r := splitChar c xs
    if x == c then [] :: r
    else
      match r with
      | [] => [[x]]
      | h :: t => (x :: h) :: t

/-- JS `s.split(c)` for a single-character separator. -/
def strSplitChar (s : String) (c : Char) : List String :=
  (splitChar c s.toList).map String.mk

/-- `cleanText` from the service: collapse whitespace, then trim.  (The
source's further `\n`/`\t` replacements act on a string that no longer
contains them.) -/
def cleanText (s : String) : String :=
  strTrim (String.mk (collapseWsAux s.toList false))

/-- A predicate on an element (tag, attributes, original children) that
drives one removal pass of `cleanHtml`. -/
def ElemPred := String → Attrs → NodeList → Bool

mutual
/-- Remove, top-down, every element satisfying `p` (with `p` evaluated on
the element's original subtree, matching cheerio's snapshot iteration). -/
def pruneNode (p : ElemPred) : Node → Option Node
  | .text s => some (.text s)
  | .elem t a cs => if p t a cs then none else some (.elem t a (pruneList p cs))

/-- `pruneNode` over a forest. -/
def pruneList (p : ElemPred) : NodeList → NodeList
  | .nil => .nil
  | .cons n ns =>
    match pruneNode p n with
    | some m => .cons m (pruneList p ns)
    | none => pruneList p ns
end

/-- Pass 1 of `cleanHtml`: `$('script, style, meta, link').remove()`. -/
def passTagP : ElemPred := fun t _ _ =>
  t == "script" || t == "style" || t == "meta" || t == "link"

/-- Pass 2: remove by class/id substring
(`[class*="unsubscribe"], [class*="footer"], [class*="header"],
[id*="footer"], [id*="header"]`). -/
def passAttrP : ElemPred := fun _ a _ =>
  strContains a.className "unsubscribe" || strContains a.className "footer" ||
  strContains a.className "header" || strContains a.idAttr "footer" ||
  strContains a.idAttr "header"

/-- Pass 3: remove any element whose lowercased text contains an
unsubscribe-style phrase. -/
def passPhraseP : ElemPred := fun _ _ cs =>
  let lt := strToLower (listText cs)
  strContains lt "unsubscribe" || strContains lt "privacy policy" ||
  strContains lt "manage preferences" || strContains lt "view in browser"

/-- Pass 4: remove any element with empty trimmed text and no `img`
descendant.  (Note: a bare `img` element itself has empty text and no img
*descendant*, so this pass removes every standalone image.) -/
def passEmptyP : ElemPred := fun _ _ cs =>
  strTrim (listText cs) == "" && listImgCount cs == 0

/-- `cleanHtml`: the four removal passes, in source order. -/
def cleanHtml (d : NodeList) : NodeList :=
  pruneList passEmptyP (pruneList passPhraseP (pruneList passAttrP (pruneList passTagP d)))

/-! ## Sections, links, images -/

/-- A link extracted from a section (`extractAllLinks` output shape). -/
structure Link where
  text : String
  href : String
  target : String
  type : String
  deriving Repr, DecidableEq

/-- An image extracted from a section (`extractAllImages` output shape). -/
structure Image where
  src : String
  alt : String
  caption : String
  width : Option Int
  height : Option Int
  type : String
  deriving Repr, DecidableEq

/-- One extracted content section (`processElement` output shape). -/
structure Section where
  id : String
  order : Nat
  type : String
  title : String
  content : String
  level : Option Nat := none
  tableData : Option (List (List String)) := none
  links : List Link
  images : List Image
  deriving Repr, DecidableEq

mutual
/-- Descendant elements (not the node itself) with the given tag, in
document order — cheerio `$el.find(tag)`. -/
def findTagNode (tag : String) : Node → List Node
  | .text _ => []
  | .elem _ _ cs => findTagList tag cs

/-- Elements with the given tag anywhere in a forest, in document order. -/
def findTagList (tag : String) : NodeList → List Node
  | .nil => []
  | .cons n ns =>
    (match n with
     | .text _ => []
     | .elem t a cs =>
       (if t == tag then [Node.elem t a cs] else []) ++ findTagList tag cs)
    ++ findTagList tag ns
end

/-- `detectLinkType` from the service. -/
def detectLinkType (href text : String) : String :=
  let url := strToLower href
  if strContains url "youtube.com" || strContains url "youtu.be" then "video"
  else if strContains url "twitter.com" || strContains url "x.com" then "social"
  else if strContains url "linkedin.com" then "social"
  else if strContains (strToLower text) "read more" || strContains (strToLower text) "continue reading"
      || strContains (strToLower text) "full article" then "article"
  else if strContains (strToLower text) "download" || strContains url ".pdf" then "download"
  else "external"

/-- The per-anchor body of `extractAllLinks`: `none` models the early
`return` (the link is skipped). -/
def linkOf (n : Node) : Option Link :=
  match n with
  | .text _ => none
  | .elem _ a cs =>
    match a.href with
    | none => none
    | some href =>
      let text := cleanText (listText cs)
      if strContains (strToLower text) "unsubscribe" || strContains (strToLower text) "privacy"
          || strContains href "unsubscribe" then none
      else
        let cleanHref :=
          if strStartsWith href "http" then some href
          else if strStartsWith href "//" then some ("https:" ++ href)
          else if strStartsWith href "/" then none
          else some href
        match cleanHref with
        | none => none
        | some ch =>
          let text2 := if text == "" || text.length < 2 then
              (match a.titleAttr with
               | some t => if t == "" then "Link" else t
               | none => "Link")
            else text
          some { text := substrTo text2 200, href := ch, target := "_blank",
                 type := detectLinkType ch text2 }

/-- `extractAllLinks($, $el)`: every `a` descendant, via `linkOf`. -/
def extractAllLinks (n : Node) : List Link :=
  (findTagNode "a" n).filterMap linkOf

/-- `detectImageType` from the service. -/
def detectImageType (src alt : String) : String :=
  let srcLower := strToLower src
  let altLower := strToLower alt
  if strContains altLower "chart" || strContains altLower "graph"
      || strContains altLower "data" || strContains srcLower "chart" then "chart"
  else if strContains altLower "logo" || strContains srcLower "logo" then "logo"
  else if strContains altLower "product" || strContains altLower "screenshot" then "product"
  else "content"

/-- `$img.attr('src') || $img.attr('data-src')`: an empty `src`
attribute is falsy in JS, so it falls through to `data-src`. -/
def imgSrcAttr (a : Attrs) : Option String :=
  match a.src with
  | some s => if s == "" then a.dataSrc else some s
  | none => a.dataSrc

/-- The per-`img` body of `extractAllImages`; `none` models a skip. -/
def imageOf (n : Node) : Option Image :=
  match n with
  | .text _ => none
  | .elem _ a _ =>
    match imgSrcAttr a with
    | none => none
    | some src =>
      if src == "" then none
      else if (match a.width with | some w => w < 10 | none => false)
          || (match a.height with | some h => h < 10 | none => false)
          || strContains src "tracking" || strContains src "pixel" then none
      else
        some { src := if strStartsWith src "http" then src else "https:" ++ src,
               alt := (a.alt).getD "", caption := (a.alt).getD "",
               width := a.width, height := a.height,
               type := detectImageType src ((a.alt).getD "") }

/-- `extractAllImages($, $el)`: every `img` descendant, via `imageOf`. -/
def extractAllImages (n : Node) : List Image :=
  (findTagNode "img" n).filterMap imageOf

/-- Does a lowercased tag name match `/^h[1-6]$/`? -/
def isHeadingStr (t : String) : Bool :=
  t == "h1" || t == "h2" || t == "h3" || t == "h4" || t == "h5" || t == "h6"

/-- `text.match(/\$[\d,]+/)`: a `$` immediately followed by a digit or
comma somewhere in the text. -/
def hasDollarAmount (l : List Char) : Bool :=
  match l with
  | [] => false
  | c :: rest =>
    (c == '$' && (match rest with
                  | [] => false
                  | d :: _ => d.isDigit || d == ',')) || hasDollarAmount rest

/-- `text.match(/[\d,]+%/)`: a digit or comma immediately followed by `%`. -/
def hasNumericPercent (l : List Char) : Bool :=
  match l with
  | [] => false
  | c :: rest =>
    ((c.isDigit || c == ',') && (match rest with
                                 | [] => false
                                 | d :: _ => d == '%')) || hasNumericPercent rest

mutual
/-- `ul`/`ol` elements in a subtree, the node excluded at top level via
`findUlOl`. -/
def nodeUlOlCount : Node → Nat
  | .text _ => 0
  | .elem t _ cs => (if t == "ul" || t == "ol" then 1 else 0) + listUlOlCount cs

/-- `ul`/`ol` elements in a forest. -/
def listUlOlCount : NodeList → Nat
  | .nil => 0
  | .cons n ns => nodeUlOlCount n + listUlOlCount ns
end

/-- `$el.find('ul, ol').length`, descendants only. -/
def findUlOlCount : Node → Nat
  | .text _ => 0
  | .elem _ _ cs => listUlOlCount cs

/-- `determineSectionType(tagName, text, $el)` — `tagName` is the already
lowercased tag name. -/
def determineSectionType (tagName text : String) (n : Node) : String :=
  if isHeadingStr tagName then "heading"
  else if tagName == "img" then "image"
  else if tagName == "table" then "data_table"
  else if 0 < findImgCount n then
    (if text.length < 50 then "image_with_caption" else "article_with_images")
  else if 3 < (findTagNode "a" n).length then "link_collection"
  else if strContains text "📊" || strContains text "📈" || strContains text "📉"
      || strContains text "%" || hasDollarAmount text.toList
      || hasNumericPercent text.toList then "data_highlight"
  else if 500 < text.length then "article_block"
  else if 0 < findUlOlCount n then "list_content"
  else "text_block"

mutual
/-- Descendant `td`/`th` cells of a node, in document order
(`$(row).find('td, th')` matches the selector group in document order). -/
def findCellsNode : Node → List Node
  | .text _ => []
  | .elem _ _ cs => findCellsList cs

/-- `td`/`th` elements anywhere in a forest, in document order. -/
def findCellsList : NodeList → List Node
  | .nil => []
  | .cons n ns =>
    (match n with
     | .text _ => []
     | .elem t a cs =>
       (if t == "td" || t == "th" then [Node.elem t a cs] else []) ++ findCellsList cs)
    ++ findCellsList ns
end

/-- `extractTableData`: every `tr` descendant's `td`/`th` cell texts, rows
with at least one non-empty cell. -/
def extractTableData (n : Node) : List (List String) :=
  ((findTagNode "tr" n).map (fun row =>
    (findCellsNode row).map (fun cell => cleanText (nodeText cell)))).filter
    (fun rowData => rowData.any (fun c => 0 < c.length))

/-- Parse the numeral suffix of `h1`…`h6` (`parseInt(tagName.substring(1))`). -/
def headingLevel (tagName : String) : Nat :=
  if tagName == "h1" then 1 else if tagName == "h2" then 2
  else if tagName == "h3" then 3 else if tagName == "h4" then 4
  else if tagName == "h5" then 5 else 6

/-- `processElement($, $el, order)`.  `prevElems` is the list of preceding
element siblings, nearest first, as traversed by `$el.prevAll(…)`. -/
def processElement (n : Node) (prevElems : List Node) (order : Nat) : Option Section :=
  match n with
  | .text _ => none
  | .elem tag0 a cs =>
    let tagName := strToLower tag0
    let text := cleanText (listText cs)
    if text.length < 5 then none
    else
      let base : Section :=
        { id := "section-" ++ toString order, order := order,
          type := determineSectionType tagName text (.elem tag0 a cs),
          title := "", content := text,
          links := extractAllLinks (.elem tag0 a cs),
          images := extractAllImages (.elem tag0 a cs) }
      if isHeadingStr tagName then
        some { base with title := text, type := "heading",
                         level := some (headingLevel tagName) }
      else if tagName == "img" then
        some { base with type := "image",
                         title := match a.alt with
                                  | some al => if al == "" then "Image" else al
                                  | none => "Image" }
      else if tagName == "table" then
        some { base with type := "data_table", title := "Data Table",
                         tableData := some (extractTableData (.elem tag0 a cs)) }
      else if 0 < findImgCount (.elem tag0 a cs) && text.length < 100 then
        some { base with type := "image_with_caption",
                         title := if text == "" then "Image" else text }
      else
        let headingBefore := prevElems.find? (fun m =>
          match m with
          | .elem t _ _ => isHeadingStr (strToLower t)
          | .text _ => false)
        match headingBefore with
        | some hb => some { base with title := substrTo (cleanText (nodeText hb)) 100 }
        | none =>
          let firstSentence := (strSplitChar text '.').headD ""
          some { base with title := if 100 < firstSentence.length then "" else firstSentence }

/-- Is a tag one of the candidate selectors
`h1, h2, h3, h4, h5, h6, p, div, table, img, ul, ol`?  (The parser emits
lowercase tag names, which these selectors match.) -/
def candidateTag (t : String) : Bool :=
  isHeadingStr t || t == "p" || t == "div" || t == "table" || t == "img"
    || t == "ul" || t == "ol"

mutual
/-- All elements of a subtree in document order, each paired with its
preceding element siblings (nearest first). -/
def elemsWithPrevNode : Node → List Node → List (Node × List Node)
  | .text _, _ => []
  | .elem t a cs, prev => (Node.elem t a cs, prev) :: elemsWithPrevList cs []

/-- All elements of a forest in document order, with preceding element
siblings. -/
def elemsWithPrevList : NodeList → List Node → List (Node × List Node)
  | .nil, _ => []
  | .cons n ns, prev =>
    elemsWithPrevNode n prev ++
      elemsWithPrevList ns (match n with
                            | .elem _ _ _ => n :: prev
                            | .text _ => prev)
end

/-- The inclusion filter of `extractAllContent` (the `.filter` callback).
The source compares `el.tagName !== 'IMG'` against the upper-case literal
while the parser produces lowercase tag names; the comparison is kept
verbatim. -/
def inclusionFilter (n : Node) : Bool :=
  match n with
  | .text _ => false
  | .elem t _ cs =>
    let text := strTrim (listText cs)
    if text.length == 0 && listImgCount cs == 0 then false
    else if text.length < 10 && !(isHeadingStr (strToLower t)) && t != "IMG" then false
    else if isNavigationContent text then false
    else true
where
  /-- `isNavigationContent` from the service. -/
  isNavigationContent (text : String) : Bool :=
    let lowerText := strToLower text
    strContains lowerText "unsubscribe" || strContains lowerText "privacy policy" ||
    strContains lowerText "manage preferences" || strContains lowerText "view in browser" ||
    strContains lowerText "forward to a friend" || strContains lowerText "update preferences" ||
    strContains lowerText "contact us"

/-- The `.each` loop of `extractAllContent`: emit sections with a running
`order` counter that advances only when `processElement` returns one. -/
def emitSections : List (Node × List Node) → Nat → List Section
  | [], _ => []
  | (n, prev) :: rest, order =>
    match processElement n prev order with
    | some s => s :: emitSections rest (order + 1)
    | none => emitSections rest order

/-- `mergeRelatedSections`: the source returns its input unchanged. -/
def mergeRelatedSections (sections : List Section) : List Section := sections

/-- `extractAllContent($)`: candidate selection, inclusion filter, then
section emission with `order` starting at 1. -/
def extractAllContent (d : NodeList) : List Section :=
  let contentElements := (elemsWithPrevList d []).filter (fun p =>
    match p.1 with
    | .elem t _ _ => candidateTag t && inclusionFilter p.1
    | .text _ => false)
  mergeRelatedSections (emitSections contentElements 1)

/-! ## Metadata, enrichment, confidence -/

/-- The newsletter source handed to the facade (`{name, logo, website}`). -/
structure NlSource where
  name : String
  logo : Option String := none
  website : Option String := none
  deriving Repr, DecidableEq

/-- Extraction metadata.  `publishDate`, `extractedAt` (wall-clock
timestamps) and `brandColors` (read by no claim) are outside the
embedding. -/
structure Metadata where
  title : String
  readTime : String := "5 min"
  source : String := ""
  sourceLogo : Option String := none
  sourceWebsite : Option String := none
  deriving Repr, DecidableEq

/-- All elements of a forest in document order. -/
def allElems (d : NodeList) : List Node :=
  (elemsWithPrevList d []).map (fun p => p.1)

/-- Text of the first element matching a predicate, or `""`
(`$(sel).first().text()`). -/
def firstText (d : NodeList) (q : String → Attrs → Bool) : String :=
  match (allElems d).find? (fun n =>
    match n with
    | .elem t a _ => q t a
    | .text _ => false) with
  | some n => nodeText n
  | none => ""

/-- `$('title').text()`: concatenated text of every `title` element. -/
def allTitleText (d : NodeList) : String :=
  ((findTagList "title" d).map nodeText).foldl (fun acc s => acc ++ s) ""

/-- `extractMetadata($, newsletterSource, …)`. -/
def extractMetadata (d : NodeList) (src : NlSource) : Metadata :=
  let titleSources := ([allTitleText d,
    firstText d (fun t _ => t == "h1"),
    firstText d (fun _ a => strContains a.className "subject"),
    firstText d (fun _ a => strContains a.className "title"),
    firstText d (fun _ a => strContains a.idAttr "subject")].filter (fun s => s != ""))
  let title := titleSources.headD (src.name ++ " Newsletter")
  { title := cleanText title, readTime := "5 min", source := src.name,
    sourceLogo := src.logo, sourceWebsite := src.website }

/-- `generateSearchText(sections, title)`. -/
def generateSearchText (sections : List Section) (title : String) : String :=
  strToLower (sections.foldl (fun acc s => acc ++ s.title ++ " " ++ s.content ++ " ") (title ++ " "))

/-- `calculateWordCount(sections)`: JS `split(' ')` splits on single
spaces, yielding one more piece than separators. -/
def calculateWordCount (sections : List Section) : Nat :=
  sections.foldl (fun count s => count + (strSplitChar s.content ' ').length) 0

/-- The fixed tag taxonomy of `extractTags`. -/
def tagKeywords : List (String × List String) :=
  [("tech", ["technology", "ai", "artificial intelligence", "software", "app"]),
   ("business", ["business", "company", "revenue", "profit", "market"]),
   ("finance", ["finance", "money", "investment", "stock", "crypto"]),
   ("startup", ["startup", "founder", "funding", "venture"]),
   ("news", ["news", "breaking", "update", "report"]),
   ("data", ["data", "chart", "graph", "statistics"])]

/-- `extractTags(sections, title)`. -/
def extractTags (sections : List Section) (title : String) : List String :=
  let allText := strToLower (sections.foldl (fun acc s => acc ++ " " ++ s.content) title)
  (tagKeywords.filter (fun kv => kv.2.any (fun kw => strContains allText kw))).map
    (fun kv => kv.1)

/-- `calculateConfidence(sections, metadata)`: sequential additions then
`Math.min(score, 1.0)`, in exact rational arithmetic. -/
def calculateConfidence (sections : List Section) (metadata : Metadata) : ℚ :=
  let score : ℚ := 1/2
  let score := if metadata.title != "" && 10 < metadata.title.length then score + 1/5 else score
  let score := if 3 ≤ sections.length then score + 1/10 else score
  let score := if sections.any (fun s => 0 < s.images.length) then score + 1/10 else score
  let score := if sections.any (fun s => 0 < s.links.length) then score + 1/10 else score
  min score 1

/-! ## The extraction facade -/

/-- The processed payload of a successful extraction (also the shape of
the degraded fallback). -/
structure Processed where
  metadata : Metadata
  sections : List Section
  searchText : String
  wordCount : Nat
  tags : List String
  extractionConfidence : ℚ
  deriving Repr, DecidableEq

/-- `cheerio.load`: wrap markup in an `html`/`head`/`body` scaffold (the
wrapper elements are visible to `$('*')` and are part of the cleaned
document). -/
def load (body : NodeList) : NodeList :=
  .cons (.elem "html" {} (.cons (.elem "head" {} .nil)
    (.cons (.elem "body" {} body) .nil))) .nil

/-- The `try` body of `extractContent`: clean, segment, enrich. -/
def runPipeline (body : NodeList) (src : NlSource) : Processed :=
  let d := cleanHtml (load body)
  let sections := extractAllContent d
  let metadata := extractMetadata d src
  { metadata := metadata, sections := sections,
    searchText := generateSearchText sections metadata.title,
    wordCount := calculateWordCount sections,
    tags := extractTags sections metadata.title,
    extractionConfidence := calculateConfidence sections metadata }

/-- `createFallbackContent(emailHtml, newsletterSource)`: the degraded
result built from a fresh, uncleaned parse of the input.  (The code's
fallback metadata carries only title/publishDate/readTime/brandColors;
the source fields stay empty here.) -/
def createFallbackContent (body : NodeList) (src : NlSource) : Processed :=
  { metadata := { title := src.name ++ " Newsletter", readTime := "5 min" },
    sections := [{ id := "fallback-1", type := "article_block",
                   title := "Newsletter Content",
                   content := substrTo (listText body) 1000 ++ "...",
                   order := 1, links := [], images := [] }],
    extractionConfidence := 3/10, wordCount := 200,
    searchText := strToLower (listText body), tags := [] }

/-- Result of `extractContent`: `{success:true, …processed}` or
`{success:false, error, fallback}`. -/
inductive ExtractionOutcome where
  | success : Processed → ExtractionOutcome
  | failure : (error : String) → (fallback : Processed) → ExtractionOutcome
  deriving Repr, DecidableEq

/-- `extractContent(emailHtml, newsletterSource)`.  The embedded pipeline
is total; a JS runtime exception inside the `try` block is an
environmental event and is modelled by the `thrown` argument: `some e`
means some step threw with message `e`, and the `catch` branch answers
with the fallback built from the raw input.  In either case the facade
returns a value — it never propagates an exception. -/
def extractContent (thrown : Option String) (body : NodeList) (src : NlSource) :
    ExtractionOutcome :=
  match thrown with
  | none => .success (runPipeline body src)
  | some e => .failure e (createFallbackContent body src)

/-- The sections reaching the caller, on either path. -/
def outcomeSections : ExtractionOutcome → List Section
  | .success p => p.sections
  | .failure _ fb => fb.sections

/-! ## The inbound message router (`EmailProcessingService`)

Database reads and writes are modelled by explicit state passing over a
`DB` value; the outcomes of the two heuristic lookups that depend only on
pre-existing catalog rows (`findExistingNewsletterSource`, the
content-detection result) are supplied by a `RouterEnv` oracle, as is the
extraction exception of the facade.  Timestamp-only updates
(`lastContentAt`, `approvedAt`, metadata merges on an existing source)
are outside the embedding. -/

/-- One row of `UserBlockList`. -/
structure BlockEntry where
  userId : Nat
  isActive : Bool
  blockType : String
  blockValue : String
  deriving Repr, DecidableEq

/-- `fromEmail.split('@')[1]?.toLowerCase()` — `none` models `undefined`. -/
def senderDomainOf (fromEmail : String) : Option String :=
  ((strSplitChar fromEmail '@').get? 1).map strToLower

/-- `isEmailBlocked(userId, fromEmail, subject, senderDomain)`: an active
row of the user matching by exact email, exact domain, or case-insensitive
(`iLike`, no wildcards) subject keyword. -/
def isEmailBlocked (blockList : List BlockEntry) (userId : Nat)
    (fromEmail subject : String) (senderDomain : Option String) : Bool :=
  blockList.any fun e =>
    e.userId == userId && e.isActive &&
      ((e.blockType == "email" && e.blockValue == fromEmail) ||
       (e.blockType == "domain" &&
         (match senderDomain with | some d => e.blockValue == d | none => false)) ||
       (e.blockType == "keyword" && strToLower e.blockValue == strToLower subject))

/-- `charAt(0).toUpperCase() + slice(1)`. -/
def capitalizeFirst (s : String) : String :=
  match s.toList with
  | [] => ""
  | c :: cs => String.mk (c.toUpper :: cs)

/-- `extractNewsletterName(fromEmail, subject)`.  The final
`return domain || 'Unknown Newsletter'` of the source is unreachable:
`subject.split(' ')` is never an empty array. -/
def extractNewsletterName (fromEmail subject : String) : String :=
  let domain := ((strSplitChar fromEmail '@').get? 1).map strToLower
  if (match domain with | some d => strContains d "substack.com" | none => false) then
    capitalizeFirst ((strSplitChar ((strSplitChar fromEmail '@').getD 1 "") '.').headD "")
  else if (match domain with
           | some d => strContains d "convertkit.com" || strContains d "ck.page"
           | none => false) then "Newsletter"
  else (strSplitChar subject ' ').headD ""

/-- The fixed category taxonomy of `detectCategory`. -/
def categoryKeywords : List (String × List String) :=
  [("tech", ["technology", "ai", "software", "programming", "tech", "startup", "developer", "code", "saas"]),
   ("business", ["business", "finance", "investing", "marketing", "entrepreneur", "revenue", "growth", "strategy"]),
   ("design", ["design", "ux", "ui", "creative", "visual", "brand", "figma", "adobe"]),
   ("news", ["news", "politics", "current events", "world", "breaking", "report", "analysis"]),
   ("lifestyle", ["lifestyle", "health", "wellness", "personal", "fitness", "food", "travel"]),
   ("education", ["education", "learning", "course", "tutorial", "university", "study", "research"]),
   ("crypto", ["crypto", "bitcoin", "ethereum", "blockchain", "defi", "nft", "trading"])]

/-- `detectCategory(contentText)`: keyword-count scores; the `reduce`
keeps the accumulator only on a strictly greater score, so ties go to the
later category; `other` when the best score is zero. -/
def detectCategory (contentText : String) : String :=
  let text := strToLower contentText
  let scores := categoryKeywords.map (fun kv =>
    (kv.1, kv.2.foldl (fun sc kw => sc + (if strContains text kw then 1 else 0)) 0))
  match scores with
  | [] => "other"
  | s0 :: rest =>
    let best := rest.foldl (fun a b => if b.2 < a.2 then a else b) s0
    if 0 < best.2 then best.1 else "other"

/-- One row of `NewsletterSource` (identity fields only). -/
structure SourceRec where
  id : Nat
  name : String
  logo : Option String := none
  website : Option String := none
  deriving Repr, DecidableEq

/-- One row of `NewsletterSubscription`. -/
structure Subscription where
  userId : Nat
  newsletterSourceId : Nat
  autoApprove : Bool
  isActive : Bool
  deriving Repr, DecidableEq

/-- One row of `NewsletterContent`, restricted to the fields the service
writes or queries.  The `metadata` bag is flattened into `mdTitle`,
`mdExtractionFailed`, `mdRawContent`. -/
structure ContentRecord where
  userId : Nat
  newsletterSourceId : Option Nat := none
  approvalStatus : String
  originalSubject : String
  originalHtml : String
  originalFrom : String
  senderDomain : Option String
  detectedNewsletterName : String
  detectedCategory : String
  mdTitle : String
  mdExtractionFailed : Bool := false
  mdRawContent : Bool := false
  sections : List Section
  processingStatus : String
  processingError : Option String := none
  extractionConfidence : ℚ
  wordCount : Nat
  searchText : String
  tags : List String
  deriving Repr, DecidableEq

/-- The persistent store the router reads and writes. -/
structure DB where
  sources : List SourceRec
  subscriptions : List Subscription
  contents : List ContentRecord
  deriving Repr, DecidableEq

/-- Oracle outcomes for the router's heuristic lookups and for the
facade's exception. -/
structure RouterEnv where
  blockList : List BlockEntry
  existingSource : Option SourceRec := none
  detection : Option SourceRec := none
  thrown : Option String := none
  deriving Repr, DecidableEq

/-- `detectNewsletterSource`: an existing catalog match wins; otherwise a
successful content detection creates a new source row; otherwise `null`. -/
def detectNewsletterSource (env : RouterEnv) (db : DB) : Option SourceRec × DB :=
  match env.existingSource with
  | some s => (some s, db)
  | none =>
    match env.detection with
    | some s => (some s, { db with sources := db.sources ++ [s] })
    | none => (none, db)

/-- `determineApprovalStatus(userId, newsletterSource, fromEmail)`. -/
def determineApprovalStatus (db : DB) (userId : Nat) (src : Option SourceRec)
    (fromEmail : String) : String :=
  let viaSubscription :=
    match src with
    | some s => db.subscriptions.any fun sub =>
        sub.userId == userId && sub.newsletterSourceId == s.id &&
          sub.autoApprove && sub.isActive
    | none => false
  if viaSubscription then "approved"
  else if db.contents.any (fun c =>
      c.userId == userId && c.originalFrom == fromEmail &&
        (c.approvalStatus == "approved" || c.approvalStatus == "auto_approved")) then
    "auto_approved"
  else "pending"

/-- `updateSubscriptionTracking`: `findOrCreate` on
`(userId, newsletterSourceId)`; an existing row only gets a timestamp
touch (outside the embedding). -/
def updateSubscriptionTracking (db : DB) (userId : Nat) (src : Option SourceRec) : DB :=
  match src with
  | none => db
  | some s =>
    if db.subscriptions.any (fun sub =>
        sub.userId == userId && sub.newsletterSourceId == s.id) then db
    else { db with subscriptions := db.subscriptions ++
        [{ userId := userId, newsletterSourceId := s.id,
           autoApprove := false, isActive := true }] }

/-- The inbound message as handed to `processIncomingNewsletter`.
`htmlRaw` is the `html || text` string (its length feeds the failed-path
`wordCount`); `body` is its parsed DOM, the facade's input. -/
structure InboundMsg where
  userId : Nat
  fromEmail : String
  subject : String
  htmlRaw : String
  body : NodeList
  deriving Repr

/-- The router's return value. -/
structure RouterResult where
  success : Bool
  contentId : Option Nat := none
  approvalStatus : Option String := none
  message : String
  deriving Repr, DecidableEq

/-- The shared `contentData` fields plus the failed-extraction branch's
overrides: empty `sections`, `processingStatus:'failed'`, the raw-content
marker, confidence 0, the raw string length as `wordCount`. -/
def rawFallbackRecord (msg : InboundMsg) (senderDomain : Option String)
    (srcId : Option Nat) (srcName : String) (approvalStatus errMsg : String) :
    ContentRecord :=
  { userId := msg.userId, newsletterSourceId := srcId,
    approvalStatus := approvalStatus, originalSubject := msg.subject,
    originalHtml := msg.htmlRaw, originalFrom := msg.fromEmail,
    senderDomain := senderDomain, detectedNewsletterName := srcName,
    detectedCategory := detectCategory (msg.subject ++ " " ++ msg.htmlRaw),
    mdTitle := msg.subject, mdExtractionFailed := true, mdRawContent := true,
    sections := [], processingStatus := "failed", processingError := some errMsg,
    extractionConfidence := 0, wordCount := msg.htmlRaw.length,
    searchText := strToLower msg.subject, tags := [] }

/-- The success branch's `NewsletterContent.create` payload.
`extractionConfidence || 0.8` falls back on a falsy (zero) confidence. -/
def processedRecord (msg : InboundMsg) (senderDomain : Option String)
    (srcId : Option Nat) (srcName : String) (approvalStatus : String)
    (p : Processed) : ContentRecord :=
  { userId := msg.userId, newsletterSourceId := srcId,
    approvalStatus := approvalStatus, originalSubject := msg.subject,
    originalHtml := msg.htmlRaw, originalFrom := msg.fromEmail,
    senderDomain := senderDomain, detectedNewsletterName := srcName,
    detectedCategory := detectCategory (msg.subject ++ " " ++ msg.htmlRaw),
    mdTitle := p.metadata.title, mdExtractionFailed := false, mdRawContent := false,
    sections := p.sections, processingStatus := "completed",
    processingError := none,
    extractionConfidence := if p.extractionConfidence == 0 then 4/5 else p.extractionConfidence,
    wordCount := p.wordCount, searchText := p.searchText, tags := p.tags }

/-- `processIncomingNewsletter({userId, fromEmail, subject, html, text})`:
block check, source resolution, approval disposition, subscription
tracking, extraction, persistence.  The created record's id is modelled
by its index in `contents`. -/
def processIncomingNewsletter (env : RouterEnv) (db : DB) (msg : InboundMsg) :
    RouterResult × DB :=
  let senderDomain := senderDomainOf msg.fromEmail
  if isEmailBlocked env.blockList msg.userId msg.fromEmail msg.subject senderDomain then
    ({ success := true, message := "Email blocked by user settings" }, db)
  else
    let sd := detectNewsletterSource env db
    let newsletterSource := sd.1
    let db1 := sd.2
    let approvalStatus := determineApprovalStatus db1 msg.userId newsletterSource msg.fromEmail
    let db2 := updateSubscriptionTracking db1 msg.userId newsletterSource
    let srcName := match newsletterSource with
      | some s => s.name
      | none => extractNewsletterName msg.fromEmail msg.subject
    let srcId := newsletterSource.map (fun s => s.id)
    let er := extractContent env.thrown msg.body { name := srcName }
    match er with
    | .failure errMsg _ =>
      let rec0 := rawFallbackRecord msg senderDomain srcId srcName approvalStatus errMsg
      ({ success := true, contentId := some db2.contents.length,
         approvalStatus := some approvalStatus,
         message := "Content saved as raw (extraction failed)" },
       { db2 with contents := db2.contents ++ [rec0] })
    | .success p =>
      let rec1 := processedRecord msg senderDomain srcId srcName approvalStatus p
      ({ success := true, contentId := some db2.contents.length,
         approvalStatus := some approvalStatus,
         message := "Newsletter processed successfully" },
       { db2 with contents := db2.contents ++ [rec1] })

/-! ## Auxiliary predicates for the theorems -/

/-- The confidence score as a function of its four boolean signals
(title > 10 chars; ≥ 3 sections; some section with an image; some
section with a link). -/
def confOfSignals (t s i l : Bool) : ℚ :=
  min ((1:ℚ)/2 + (if t then 1/5 else 0) + (if s then 1/10 else 0)
    + (if i then 1/10 else 0) + (if l then 1/10 else 0)) 1

mutual
/-- Does some element of the subtree (the node included) satisfy `p` on
its own tag, attributes and children? -/
def nodeHasElem (p : ElemPred) : Node → Bool
  | .text _ => false
  | .elem t a cs => p t a cs || listHasElem p cs

/-- `nodeHasElem` over a forest. -/
def listHasElem (p : ElemPred) : NodeList → Bool
  | .nil => false
  | .cons n ns => nodeHasElem p n || listHasElem p ns
end

mutual
/-- Parser invariant: `img` is a void element, so an element whose tag
lowercases to `img` has no children. -/
def nodeImgsChildless : Node → Bool
  | .text _ => true
  | .elem t _ cs =>
    (strToLower t != "img" || (match cs with | .nil => true | .cons _ _ => false))
      && listImgsChildless cs

/-- `nodeImgsChildless` over a forest. -/
def listImgsChildless : NodeList → Bool
  | .nil => true
  | .cons n ns => nodeImgsChildless n && listImgsChildless ns
end

/-! ## Concrete documents and messages used in counterexamples and
witnesses -/

/-- `<div>unsub<span> </span>scribe</div>`: the whitespace-only span is
removed by the empty-element pass, merging the surrounding text into
`unsubscribe`. -/
def docWsSpan : NodeList :=
  .cons (.elem "div" {} (.cons (.text "unsub")
    (.cons (.elem "span" {} (.cons (.text " ") .nil))
      (.cons (.text "scribe") .nil)))) .nil

/-- `<div><a href="page.html">some link text</a></div>`: a bare relative
href (no leading slash). -/
def docBareLink : Node :=
  .elem "div" {} (.cons (.elem "a" { href := some "page.html" }
    (.cons (.text "some link text") .nil)) .nil)

/-- `<div><img src="a.png"></div>`: a bare relative image source. -/
def docBareImg : Node :=
  .elem "div" {} (.cons (.elem "img" { src := some "a.png" } .nil) .nil)

/-- Children holding an image and 59 characters of text (≥ 50, < 100). -/
def imgCaptionKids : NodeList :=
  .cons (.elem "img" { src := some "https://x.example/a.png" } .nil)
    (.cons (.text "abcdefghij abcdefghij abcdefghij abcdefghij abcdefghij abcd") .nil)

/-- A `div` containing an image and 59 characters of text (≥ 50, < 100). -/
def docImgText59 : Node := .elem "div" {} imgCaptionKids

/-- The all-empty section record, used as a `getD` default. -/
def emptySection : Section :=
  { id := "", order := 0, type := "", title := "", content := "",
    links := [], images := [] }

/-- `<h1>Hi</h1>`: a heading whose text is shorter than 5 characters. -/
def docShortHeading : NodeList :=
  .cons (.elem "h1" {} (.cons (.text "Hi") .nil)) .nil

/-- `<img src="https://x.example/a.png">` alone. -/
def docLoneImg : NodeList :=
  .cons (.elem "img" { src := some "https://x.example/a.png" } .nil) .nil

/-- A small body with a heading, a paragraph and an image. -/
def docWitnessBody : NodeList :=
  .cons (.elem "h1" {} (.cons (.text "Weekly Digest") .nil))
    (.cons (.elem "div" {} (.cons (.elem "img" { src := some "https://x.example/p.png" } .nil)
      (.cons (.text "A chart of the week for paid readers everywhere.") .nil))) .nil)

/-- A one-text-node body (`hello`). -/
def docHello : NodeList := .cons (.text "hello") .nil

/-- A newsletter source named `Src`. -/
def srcSrc : NlSource := { name := "Src" }

/-- An empty database. -/
def dbEmpty : DB := { sources := [], subscriptions := [], contents := [] }

/-- A block-list row blocking `a@b.com` for user 7. -/
def blockA : BlockEntry :=
  { userId := 7, isActive := true, blockType := "email", blockValue := "a@b.com" }

/-- A message from `a@b.com` to user 7. -/
def msgA : InboundMsg :=
  { userId := 7, fromEmail := "a@b.com", subject := "Hello there",
    htmlRaw := "<p>hi</p>", body := docHello }

/-- A router environment whose only feature is blocking `a@b.com`. -/
def envBlock : RouterEnv := { blockList := [blockA] }

/-- A router environment in which extraction throws `boom`. -/
def envThrow : RouterEnv := { blockList := [], thrown := some "boom" }

/-! ## Claim C1 — facade error handling -/

/-- Claim C1 (amended): whenever a pipeline step throws, `extractContent`
returns `{success:false, error, fallback}` whose fallback holds exactly
one `article_block` section whose content is the first 1000 characters of
the document's visible text *followed by the literal `"..."`*, a fixed
confidence of 0.3, and an empty tag list; no exception reaches the
caller (the facade is a total function of the thrown event). -/
theorem extractContent_failure_shape (e : String) (body : NodeList) (src : NlSource) :
    extractContent (some e) body src = .failure e (createFallbackContent body src)
    ∧ (createFallbackContent body src).sections
        = [{ id := "fallback-1", type := "article_block",
             title := "Newsletter Content",
             content := substrTo (listText body) 1000 ++ "...",
             order := 1, links := [], images := [] }]
    ∧ (createFallbackContent body src).extractionConfidence = 3/10
    ∧ (createFallbackContent body src).tags = [] :=
  ⟨rfl, rfl, rfl, rfl⟩

/-- Claim C1 is false as stated: on the document `hello` the fallback
section's content is `hello...`, not the first 1000 characters of the
visible text (`hello`) — the code appends an ellipsis. -/
theorem extractContent_fallback_appends_ellipsis :
    extractContent (some "boom") docHello srcSrc
      = .failure "boom" (createFallbackContent docHello srcSrc)
    ∧ (createFallbackContent docHello srcSrc).sections.map (fun s => s.content)
        = ["hello..."]
    ∧ substrTo (listText docHello) 1000 = "hello"
    ∧ (createFallbackContent docHello srcSrc).sections.map (fun s => s.content)
        ≠ [substrTo (listText docHello) 1000] := by
  refine ⟨rfl, by decide, by decide, by decide⟩

/-! ## Claim C4 — the confidence score -/

/-- An `if`-guarded nonnegative summand is nonnegative. -/
theorem iteBool_nonneg (b : Bool) (q : ℚ) (hq : 0 ≤ q) : 0 ≤ if b then q else 0 := by
  cases b <;> simp [hq]

/-- An `if`-guarded nonnegative summand grows when its guard turns on. -/
theorem iteBool_mono (b b' : Bool) (q : ℚ) (hq : 0 ≤ q) (h : b = true → b' = true) :
    (if b then q else 0) ≤ (if b' then q else 0) := by
  cases b
  · cases b' <;> simp [hq]
  · rw [h rfl]

/-- `calculateConfidence` is the signal function applied to its four
boolean signals. -/
theorem calculateConfidence_eq_signals (sections : List Section) (md : Metadata) :
    calculateConfidence sections md
      = confOfSignals (md.title != "" && decide (10 < md.title.length))
          (decide (3 ≤ sections.length))
          (sections.any fun s => decide (0 < s.images.length))
          (sections.any fun s => decide (0 < s.links.length)) := by
  rw [calculateConfidence, confOfSignals]
  by_cases h1 : (md.title != "" && decide (10 < md.title.length)) = true <;>
  by_cases h2 : 3 ≤ sections.length <;>
  by_cases h3 : (sections.any fun s => decide (0 < s.images.length)) = true <;>
  by_cases h4 : (sections.any fun s => decide (0 < s.links.length)) = true <;>
  simp [h1, h2, h3, h4]

/-- Claim C4: for every successful extraction, `extractionConfidence`
equals `min(0.5 + 0.2·[title>10] + 0.1·[sections≥3] + 0.1·[some image]
+ 0.1·[some link], 1)`; it lies in `[0,1]`; and it is monotone in the
four qualifying signals (adding a signal to an otherwise-fixed input
never decreases the score). -/
theorem calculateConfidence_spec :
    (∀ (sections : List Section) (md : Metadata),
      calculateConfidence sections md
        = min ((1:ℚ)/2
            + (if 10 < md.title.length then 1/5 else 0)
            + (if 3 ≤ sections.length then 1/10 else 0)
            + (if ∃ s ∈ sections, 0 < s.images.length then 1/10 else 0)
            + (if ∃ s ∈ sections, 0 < s.links.length then 1/10 else 0)) 1
      ∧ 0 ≤ calculateConfidence sections md
      ∧ calculateConfidence sections md ≤ 1)
    ∧ (∀ t1 t2 s1 s2 i1 i2 l1 l2 : Bool,
        (t1 = true → t2 = true) → (s1 = true → s2 = true) →
        (i1 = true → i2 = true) → (l1 = true → l2 = true) →
        confOfSignals t1 s1 i1 l1 ≤ confOfSignals t2 s2 i2 l2) := by
  have hmono : ∀ t1 t2 s1 s2 i1 i2 l1 l2 : Bool,
      (t1 = true → t2 = true) → (s1 = true → s2 = true) →
      (i1 = true → i2 = true) → (l1 = true → l2 = true) →
      confOfSignals t1 s1 i1 l1 ≤ confOfSignals t2 s2 i2 l2 := by
    intro t1 t2 s1 s2 i1 i2 l1 l2 h1 h2 h3 h4
    rw [confOfSignals, confOfSignals]
    exact min_le_min
      (add_le_add (add_le_add (add_le_add (add_le_add le_rfl
        (iteBool_mono _ _ _ (by norm_num) h1))
        (iteBool_mono _ _ _ (by norm_num) h2))
        (iteBool_mono _ _ _ (by norm_num) h3))
        (iteBool_mono _ _ _ (by norm_num) h4)) le_rfl
  refine ⟨fun sections md => ⟨?_, ?_, ?_⟩, hmono⟩
  · rw [calculateConfidence_eq_signals, confOfSignals]
    have hany1 : ((sections.any fun s => decide (0 < s.images.length)) = true)
        ↔ ∃ s ∈ sections, 0 < s.images.length := by
      simp [List.any_eq_true]
    have hany2 : ((sections.any fun s => decide (0 < s.links.length)) = true)
        ↔ ∃ s ∈ sections, 0 < s.links.length := by
      simp [List.any_eq_true]
    by_cases ht : md.title = ""
    · have hlen : ¬ (10 < md.title.length) := by rw [ht]; decide
      simp [ht, hlen, hany1, hany2]
    · simp [ht, hany1, hany2]
  · rw [calculateConfidence_eq_signals, confOfSignals]
    refine le_min ?_ (by norm_num)
    have h0 : (0:ℚ) ≤ 1/2 := by norm_num
    exact add_nonneg (add_nonneg (add_nonneg (add_nonneg h0
      (iteBool_nonneg _ _ (by norm_num))) (iteBool_nonneg _ _ (by norm_num)))
      (iteBool_nonneg _ _ (by norm_num))) (iteBool_nonneg _ _ (by norm_num))
  · rw [calculateConfidence_eq_signals, confOfSignals]
    exact min_le_right _ _

/-- Witness for the monotonicity part of `calculateConfidence_spec` at a
concrete pair of signal vectors, and for the bound part at a concrete
input. -/
theorem calculateConfidence_spec_witness :
    confOfSignals false false false false ≤ confOfSignals true false false false
    ∧ 0 ≤ calculateConfidence [] { title := "" } :=
  ⟨calculateConfidence_spec.2 false true false false false false false false
      (fun _ => rfl) (fun h => h) (fun h => h) (fun h => h),
   (calculateConfidence_spec.1 [] { title := "" }).2.1⟩

/-! ## Claim C2 — URL normalization of links and images -/

/-- Case analysis of the `cleanHref` normalization in `extractAllLinks`. -/
theorem cleanHrefCases (href ch : String)
    (h : (if strStartsWith href "http" then some href
          else if strStartsWith href "//" then some ("https:" ++ href)
          else if strStartsWith href "/" then none else some href) = some ch) :
    (strStartsWith href "http" = true ∧ ch = href)
    ∨ (strStartsWith href "http" = false ∧ strStartsWith href "//" = true
        ∧ ch = "https:" ++ href)
    ∨ (strStartsWith href "http" = false ∧ strStartsWith href "//" = false
        ∧ strStartsWith href "/" = false ∧ ch = href) := by
  cases h1 : strStartsWith href "http" <;> simp only [h1] at h
  case true =>
    simp at h
    exact Or.inl ⟨rfl, h.symm⟩
  case false =>
    cases h2 : strStartsWith href "//" <;> simp only [h2] at h
    case true =>
      simp at h
      exact Or.inr (Or.inl ⟨rfl, rfl, h.symm⟩)
    case false =>
      cases h3 : strStartsWith href "/" <;> simp only [h3] at h
      case true => simp at h
      case false =>
        simp at h
        exact Or.inr (Or.inr ⟨rfl, rfl, rfl, h.symm⟩)

/-- Claim C2 (amended): every emitted `Link.href` is either the original
href unchanged — when it starts with `http` (any such prefix, including
already-absolute URLs) or starts with neither `http` nor `/` (other
schemes and bare relative paths pass through) — or is `https:` prepended
to a protocol-relative `//` href; root-relative hrefs (`/…` but not
`//…`) are dropped.  Every emitted `Image.src` is the original src when
it starts with `http` and `https:` + src otherwise (so bare relative
sources become `https:name`, not an `https://` URL). -/
theorem extractAll_urls_normalized (n : Node) :
    (∀ l ∈ extractAllLinks n, ∃ h : String,
        (strStartsWith h "http" = true ∧ l.href = h)
        ∨ (strStartsWith h "http" = false ∧ strStartsWith h "//" = true
            ∧ l.href = "https:" ++ h)
        ∨ (strStartsWith h "http" = false ∧ strStartsWith h "//" = false
            ∧ strStartsWith h "/" = false ∧ l.href = h))
    ∧ (∀ i ∈ extractAllImages n, ∃ s : String,
        (strStartsWith s "http" = true ∧ i.src = s)
        ∨ (strStartsWith s "http" = false ∧ i.src = "https:" ++ s)) := by
  constructor
  · intro l hl
    rw [extractAllLinks, List.mem_filterMap] at hl
    obtain ⟨m, _, hm⟩ := hl
    cases m with
    | text s => simp [linkOf] at hm
    | elem t a cs =>
      cases ha : a.href with
      | none => simp [linkOf, ha] at hm
      | some href =>
        simp only [linkOf, ha] at hm
        split at hm
        · simp at hm
        · split at hm
          · simp at hm
          · rename_i ch heq
            injection hm with hm2
            subst hm2
            refine ⟨href, ?_⟩
            rcases cleanHrefCases href ch heq with ⟨h1, rfl⟩ | ⟨h1, h2, rfl⟩ |
              ⟨h1, h2, h3, rfl⟩
            · exact Or.inl ⟨h1, rfl⟩
            · exact Or.inr (Or.inl ⟨h1, h2, rfl⟩)
            · exact Or.inr (Or.inr ⟨h1, h2, h3, rfl⟩)
  · intro i hi
    rw [extractAllImages, List.mem_filterMap] at hi
    obtain ⟨m, _, hm⟩ := hi
    cases m with
    | text s => simp [imageOf] at hm
    | elem t a cs =>
      rw [imageOf] at hm
      cases hsa : imgSrcAttr a with
      | none => simp [hsa] at hm
      | some src =>
        simp only [hsa] at hm
        split at hm
        · simp at hm
        · split at hm
          · simp at hm
          · injection hm with hm2
            subst hm2
            cases hs : strStartsWith src "http"
            · exact ⟨src, Or.inr ⟨hs, by simp [hs]⟩⟩
            · exact ⟨src, Or.inl ⟨hs, by simp [hs]⟩⟩

/-- Witness for `extractAll_urls_normalized` at a concrete document. -/
theorem extractAll_urls_normalized_witness :
    ({ text := "some link text", href := "page.html", target := "_blank",
       type := "external" } : Link) ∈ extractAllLinks docBareLink
    ∧ ∃ h : String,
        (strStartsWith h "http" = true
          ∧ ({ text := "some link text", href := "page.html", target := "_blank",
               type := "external" } : Link).href = h)
        ∨ (strStartsWith h "http" = false ∧ strStartsWith h "//" = true
            ∧ ({ text := "some link text", href := "page.html", target := "_blank",
                 type := "external" } : Link).href = "https:" ++ h)
        ∨ (strStartsWith h "http" = false ∧ strStartsWith h "//" = false
            ∧ strStartsWith h "/" = false
            ∧ ({ text := "some link text", href := "page.html", target := "_blank",
                 type := "external" } : Link).href = h) := by
  have he : extractAllLinks docBareLink
      = [{ text := "some link text", href := "page.html", target := "_blank",
           type := "external" }] := by decide
  have hmem : ({ text := "some link text", href := "page.html",
                 target := "_blank", type := "external" } : Link)
      ∈ extractAllLinks docBareLink := by
    rw [he]; exact List.mem_singleton.mpr rfl
  exact ⟨hmem, (extractAll_urls_normalized docBareLink).1 _ hmem⟩

/-- Claim C2 is false as stated: the bare relative href `page.html` is
emitted unchanged (neither dropped nor absolutized), and the bare
relative image source `a.png` becomes `https:a.png`, which begins with
neither `http://` nor `https://`. -/
theorem bare_relative_urls_pass_through :
    (extractAllLinks docBareLink).map (fun l => l.href) = ["page.html"]
    ∧ (strStartsWith "page.html" "http://" = false
        ∧ strStartsWith "page.html" "https://" = false)
    ∧ (extractAllImages docBareImg).map (fun i => i.src) = ["https:a.png"]
    ∧ (strStartsWith "https:a.png" "http://" = false
        ∧ strStartsWith "https:a.png" "https://" = false) := by
  refine ⟨by decide, ⟨by decide, by decide⟩, by decide, ⟨by decide, by decide⟩⟩

/-! ## Claim C3 — contiguous section ordering -/

/-- Every section produced by `processElement` carries the passed ordinal
and the id derived from it. -/
theorem processElement_fields (n : Node) (prev : List Node) (k : Nat) (s : Section)
    (h : processElement n prev k = some s) :
    s.order = k ∧ s.id = "section-" ++ toString k := by
  cases n with
  | text _ => simp [processElement] at h
  | elem t a cs =>
    rw [processElement] at h
    split at h
    · simp at h
    · split at h
      · injection h with h2; subst h2; exact ⟨rfl, rfl⟩
      · split at h
        · injection h with h2; subst h2; exact ⟨rfl, rfl⟩
        · split at h
          · injection h with h2; subst h2; exact ⟨rfl, rfl⟩
          · split at h
            · injection h with h2; subst h2; exact ⟨rfl, rfl⟩
            · cases hfb : List.find? (fun m =>
                  match m with
                  | .elem t2 _ _ => isHeadingStr (strToLower t2)
                  | .text _ => false) prev with
              | some hb =>
                rw [hfb] at h
                injection h with h2; subst h2; exact ⟨rfl, rfl⟩
              | none =>
                rw [hfb] at h
                injection h with h2; subst h2; exact ⟨rfl, rfl⟩

/-- The emitted orders are consecutive, starting at the running counter. -/
theorem emitSections_order_map (l : List (Node × List Node)) (k : Nat) :
    (emitSections l k).map Section.order
      = List.range' k (emitSections l k).length := by
  induction l generalizing k with
  | nil => simp [emitSections]
  | cons p rest ih =>
    obtain ⟨n, prev⟩ := p
    rw [emitSections]
    cases hpe : processElement n prev k with
    | none => exact ih k
    | some s =>
      have hs := (processElement_fields n prev k s hpe).1
      simp [List.range'_succ, hs, ih (k + 1)]

/-- Every emitted section's id is derived from its own ordinal. -/
theorem emitSections_mem_id (l : List (Node × List Node)) (k : Nat) :
    ∀ s ∈ emitSections l k, s.id = "section-" ++ toString s.order := by
  induction l generalizing k with
  | nil => simp [emitSections]
  | cons p rest ih =>
    obtain ⟨n, prev⟩ := p
    rw [emitSections]
    cases hpe : processElement n prev k with
    | none => exact ih k
    | some s0 =>
      intro s hs
      rcases List.mem_cons.mp hs with rfl | hmem
      · obtain ⟨ho, hid⟩ := processElement_fields n prev k s hpe
        rw [hid, ho]
      · exact ih (k + 1) s hmem

/-- Claim C3: for every document, the sections returned by segmentation
have `order` values forming exactly `1..n` in emission order — no gaps,
no repeats — and each section's id is derived from its ordinal
(`section-⟨order⟩`). -/
theorem extractAllContent_order_contiguous (d : NodeList) :
    (extractAllContent d).map Section.order
      = List.range' 1 (extractAllContent d).length
    ∧ ∀ s ∈ extractAllContent d, s.id = "section-" ++ toString s.order :=
  ⟨emitSections_order_map _ 1, emitSections_mem_id _ 1⟩

/-! ## Claim C7 — image-bearing section typing -/

/-- Claim C7 (amended): for a non-heading, non-`img`, non-`table`
candidate element containing a nested image, the *emitted* section's
type is `image_with_caption` exactly when its cleaned text is shorter
than 100 characters and `article_with_images` exactly when it is 100 or
longer: `processElement`'s title-assignment branch overrides
`determineSectionType`'s 50-character split up to 100 characters. -/
theorem processElement_image_text_threshold (tag0 : String) (a : Attrs)
    (cs : NodeList) (prev : List Node) (k : Nat) (s : Section)
    (hh : isHeadingStr (strToLower tag0) = false)
    (hi : (strToLower tag0 == "img") = false)
    (ht : (strToLower tag0 == "table") = false)
    (himg : 0 < findImgCount (Node.elem tag0 a cs))
    (hs : processElement (.elem tag0 a cs) prev k = some s) :
    s.type = if (cleanText (listText cs)).length < 100
             then "image_with_caption" else "article_with_images" := by
  simp only [processElement] at hs
  split at hs
  · simp at hs
  · simp only [hh, hi, ht, Bool.false_eq_true, if_false] at hs
    by_cases hlt : (cleanText (listText cs)).length < 100
    · simp only [himg, hlt, decide_True, decide_False] at hs
      simp at hs
      subst hs
      simp [hlt]
    · simp only [hlt] at hs
      simp at hs
      have h50 : ¬ (cleanText (listText cs)).length < 50 := by omega
      cases hfb : List.find? (fun m =>
          match m with
          | .elem t2 _ _ => isHeadingStr (strToLower t2)
          | .text _ => false) prev with
      | some hb =>
        simp only [hfb] at hs
        simp at hs
        subst hs
        simp [determineSectionType, hh, hi, ht, himg, hlt, h50]
      | none =>
        simp only [hfb] at hs
        simp at hs
        subst hs
        simp [determineSectionType, hh, hi, ht, himg, hlt, h50]

/-- Witness for `processElement_image_text_threshold` at the concrete
59-character image-bearing `div`. -/
theorem processElement_image_text_threshold_witness :
    ((processElement (Node.elem "div" {} imgCaptionKids) [] 1).getD emptySection).type
      = if (cleanText (listText imgCaptionKids)).length < 100
        then "image_with_caption" else "article_with_images" :=
  processElement_image_text_threshold "div" {} imgCaptionKids [] 1 _
    (by decide) (by decide) (by decide) (by decide) (by decide)

/-- Claim C7 is false as stated: the concrete image-bearing `div` has
59 ≥ 50 characters of cleaned text, yet the emitted type is
`image_with_caption`, not `article_with_images` — the override threshold
is 100, not 50. -/
theorem image_section_fifty_threshold_fails :
    (processElement (Node.elem "div" {} imgCaptionKids) [] 1).map Section.type
        = some "image_with_caption"
    ∧ 50 ≤ (cleanText (listText imgCaptionKids)).length
    ∧ (processElement (Node.elem "div" {} imgCaptionKids) [] 1).map Section.type
        ≠ some "article_with_images"
    ∧ isHeadingStr (strToLower "div") = false
    ∧ (strToLower "div" == "img") = false
    ∧ (strToLower "div" == "table") = false
    ∧ 0 < findImgCount (Node.elem "div" {} imgCaptionKids) := by
  refine ⟨by decide, by decide, by decide, by decide, by decide, by decide, by decide⟩

/-! ## Claim C8 — short-text candidates -/

/-- A non-null section is emitted for every element whose cleaned text
has at least 5 characters. -/
theorem processElement_emits (t : String) (a : Attrs) (cs : NodeList)
    (prev : List Node) (k : Nat)
    (h5 : ¬ (cleanText (listText cs)).length < 5) :
    processElement (.elem t a cs) prev k ≠ none := by
  simp only [processElement, if_neg h5]
  split
  · simp
  · split
    · simp
    · split
      · simp
      · split
        · simp
        · cases List.find? (fun m =>
              match m with
              | .elem t2 _ _ => isHeadingStr (strToLower t2)
              | .text _ => false) prev <;> simp

/-- Claim C8 (amended): a heading candidate with non-empty,
non-boilerplate trimmed text passes the inclusion filter even below 10
characters, but a section is emitted only when the cleaned text has at
least 5 characters, so headings shorter than that are silently dropped;
a childless element (in particular a standalone `<img>`, whose text is
empty) always fails the filter, so images never emit a section; and
every non-heading candidate whose tag is not the literal `IMG` with
trimmed text shorter than 10 characters is excluded. -/
theorem short_text_filter_behaviour :
    (∀ t a cs, isHeadingStr (strToLower t) = true →
       0 < (strTrim (listText cs)).length →
       inclusionFilter.isNavigationContent (strTrim (listText cs)) = false →
       inclusionFilter (.elem t a cs) = true)
    ∧ (∀ (t : String) (a : Attrs) (cs : NodeList) (prev : List Node) (k : Nat),
        processElement (.elem t a cs) prev k = none
          ↔ (cleanText (listText cs)).length < 5)
    ∧ (∀ t a, inclusionFilter (.elem t a .nil) = false)
    ∧ (∀ t a cs, isHeadingStr (strToLower t) = false → t ≠ "IMG" →
        (strTrim (listText cs)).length < 10 →
        inclusionFilter (.elem t a cs) = false) := by
  refine ⟨?_, ?_, ?_, ?_⟩
  · intro t a cs hh h0 hnav
    have h1 : ((strTrim (listText cs)).length == 0) = false := by
      simp
      omega
    simp [inclusionFilter, h1, hh, hnav]
  · intro t a cs prev k
    constructor
    · intro h
      by_contra h5
      exact processElement_emits t a cs prev k h5 h
    · intro h5
      simp [processElement, h5]
  · intro t a
    rfl
  · intro t a cs hh hne h10
    by_cases h0 : (((strTrim (listText cs)).length == 0)
        && (listImgCount cs == 0)) = true
    · simp only [inclusionFilter, h0, if_true]
    · simp only [inclusionFilter, h0, Bool.false_eq_true, if_false]
      have hlt : ((strTrim (listText cs)).length < 10) = True := by simp [h10]
      simp [hlt, hh, hne]

/-- Witness for `short_text_filter_behaviour` at concrete elements. -/
theorem short_text_filter_behaviour_witness :
    inclusionFilter (.elem "h2" {} (.cons (.text "Hey") .nil)) = true
    ∧ (processElement (.elem "h2" {} (.cons (.text "Hey") .nil)) [] 1 = none
        ↔ (cleanText (listText (NodeList.cons (.text "Hey") .nil))).length < 5)
    ∧ inclusionFilter (.elem "img" {} .nil) = false
    ∧ inclusionFilter (.elem "p" {} (.cons (.text "short") .nil)) = false :=
  ⟨short_text_filter_behaviour.1 "h2" {} _ (by decide) (by decide) (by decide),
   short_text_filter_behaviour.2.1 "h2" {} _ [] 1,
   short_text_filter_behaviour.2.2.1 "img" {},
   short_text_filter_behaviour.2.2.2 "p" {} _ (by decide) (by decide) (by decide)⟩

/-- Claim C8 is false as stated: the heading `<h1>Hi</h1>` passes the
inclusion filter, yet segmentation emits no section for it (its cleaned
text is shorter than 5); a standalone image likewise emits nothing —
it already fails the filter. -/
theorem short_heading_kept_but_not_emitted :
    inclusionFilter (.elem "h1" {} (.cons (.text "Hi") .nil)) = true
    ∧ (strTrim (listText (NodeList.cons (Node.text "Hi") .nil))).length < 10
    ∧ extractAllContent docShortHeading = []
    ∧ extractAllContent docLoneImg = []
    ∧ inclusionFilter (.elem "img" { src := some "https://x.example/a.png" } .nil)
        = false := by
  refine ⟨by decide, by decide, by decide, by decide, by decide⟩

/-! ## Claim C9 — sanitizer idempotence -/

/-- A Boolean that is not true is false. -/
theorem bool_eq_false_of_not {b : Bool} (h : ¬ b = true) : b = false := by
  cases b
  · rfl
  · exact absurd rfl h

/-- A removal predicate that ignores the children argument (the tag- and
attribute-based passes). -/
def AttrOnly (p : ElemPred) : Prop := ∀ t a cs cs', p t a cs = p t a cs'

mutual
/-- After pruning with an attribute-only predicate, no element of a
surviving subtree satisfies it. -/
theorem pruneNode_noElem (p : ElemPred) (hp : AttrOnly p) :
    (n : Node) → (m : Node) → pruneNode p n = some m → nodeHasElem p m = false
  | .text s, m, h => by
    simp only [pruneNode] at h
    injection h with h2
    subst h2
    rfl
  | .elem t a cs, m, h => by
    simp only [pruneNode] at h
    split at h
    · exact absurd h (by simp)
    · rename_i hcond
      injection h with h2
      subst h2
      simp only [nodeHasElem]
      rw [← hp t a cs (pruneList p cs), bool_eq_false_of_not hcond,
        pruneList_noElem p hp cs]
      rfl

/-- `pruneNode_noElem` over forests. -/
theorem pruneList_noElem (p : ElemPred) (hp : AttrOnly p) :
    (l : NodeList) → listHasElem p (pruneList p l) = false
  | .nil => rfl
  | .cons n ns => by
    simp only [pruneList]
    cases hpn : pruneNode p n with
    | none => exact pruneList_noElem p hp ns
    | some m =>
      simp only [listHasElem]
      rw [pruneNode_noElem p hp n m hpn, pruneList_noElem p hp ns]
      rfl
end

mutual
/-- Pruning with any predicate preserves the absence of elements
satisfying an attribute-only predicate. -/
theorem pruneNode_preserve (p q : ElemPred) (hp : AttrOnly p) :
    (n : Node) → (m : Node) → nodeHasElem p n = false → pruneNode q n = some m →
      nodeHasElem p m = false
  | .text s, m, hn, h => by
    simp only [pruneNode] at h
    injection h with h2
    subst h2
    exact hn
  | .elem t a cs, m, hn, h => by
    simp only [pruneNode] at h
    split at h
    · exact absurd h (by simp)
    · injection h with h2
      subst h2
      simp only [nodeHasElem] at hn ⊢
      obtain ⟨hpc, hlc⟩ := Bool.or_eq_false_iff.mp hn
      rw [← hp t a cs (pruneList q cs), hpc,
        pruneList_preserve p q hp cs hlc]
      rfl

/-- `pruneNode_preserve` over forests. -/
theorem pruneList_preserve (p q : ElemPred) (hp : AttrOnly p) :
    (l : NodeList) → listHasElem p l = false →
      listHasElem p (pruneList q l) = false
  | .nil, _ => rfl
  | .cons n ns, hn => by
    simp only [listHasElem] at hn
    obtain ⟨hn1, hn2⟩ := Bool.or_eq_false_iff.mp hn
    simp only [pruneList]
    cases hpn : pruneNode q n with
    | none => exact pruneList_preserve p q hp ns hn2
    | some m =>
      simp only [listHasElem]
      rw [pruneNode_preserve p q hp n m hn1 hpn,
        pruneList_preserve p q hp ns hn2]
      rfl
end

mutual
/-- Pruning is the identity on a subtree free of matching elements. -/
theorem pruneNode_id (p : ElemPred) :
    (n : Node) → nodeHasElem p n = false → pruneNode p n = some n
  | .text s, _ => rfl
  | .elem t a cs, hn => by
    simp only [nodeHasElem] at hn
    obtain ⟨hpc, hlc⟩ := Bool.or_eq_false_iff.mp hn
    simp only [pruneNode]
    rw [if_neg (by simp [hpc]), pruneList_id p cs hlc]

/-- `pruneNode_id` over forests. -/
theorem pruneList_id (p : ElemPred) :
    (l : NodeList) → listHasElem p l = false → pruneList p l = l
  | .nil, _ => rfl
  | .cons n ns, hn => by
    simp only [listHasElem] at hn
    obtain ⟨h1, h2⟩ := Bool.or_eq_false_iff.mp hn
    simp only [pruneList]
    rw [pruneNode_id p n h1, pruneList_id p ns h2]
end

/-- Claim C9 (amended): a second sanitizer run re-removes nothing in its
tag pass (`script`/`style`/`meta`/`link`) or its class/id pass — those
passes are idempotent over `cleanHtml`'s output — but full
`sanitize∘sanitize = sanitize` fails: the empty-element pass can delete a
whitespace-only element and thereby merge the surrounding text into a
boilerplate phrase that only the second run's phrase pass removes. -/
theorem cleanHtml_tag_attr_passes_idempotent (d : NodeList) :
    pruneList passTagP (cleanHtml d) = cleanHtml d
    ∧ pruneList passAttrP (cleanHtml d) = cleanHtml d := by
  have htag : AttrOnly passTagP := fun _ _ _ _ => rfl
  have hattr : AttrOnly passAttrP := fun _ _ _ _ => rfl
  constructor
  · exact pruneList_id _ _
      (pruneList_preserve _ _ htag _
        (pruneList_preserve _ _ htag _
          (pruneList_preserve _ _ htag _ (pruneList_noElem _ htag _))))
  · exact pruneList_id _ _
      (pruneList_preserve _ _ hattr _
        (pruneList_preserve _ _ hattr _ (pruneList_noElem _ hattr _)))

/-- Claim C9 is false as stated: on
`<div>unsub<span> </span>scribe</div>` the first sanitize pass removes
the whitespace-only span, leaving a div whose text is `unsubscribe`; the
second pass then removes the div, so the second run is not a no-op. -/
theorem cleanHtml_not_idempotent :
    listText (cleanHtml docWsSpan) = "unsubscribe"
    ∧ listText (cleanHtml (cleanHtml docWsSpan)) = ""
    ∧ cleanHtml (cleanHtml docWsSpan) ≠ cleanHtml docWsSpan := by
  refine ⟨by decide, by decide, fun h => ?_⟩
  have h2 := congrArg listText h
  rw [(by decide : listText (cleanHtml (cleanHtml docWsSpan)) = ""),
    (by decide : listText (cleanHtml docWsSpan) = "unsubscribe")] at h2
  exact absurd h2 (by decide)

/-! ## Claim C10 — the `image` section type is unreachable -/

/-- Split a conjunction of Booleans. -/
theorem bool_and_split {a b : Bool} (h : (a && b) = true) : a = true ∧ b = true := by
  simp only [Bool.and_eq_true] at h
  exact h

/-- A section is only emitted when the cleaned text has ≥ 5 characters. -/
theorem processElement_some_not_short (t : String) (a : Attrs) (cs : NodeList)
    (prev : List Node) (k : Nat) (s : Section)
    (h : processElement (.elem t a cs) prev k = some s) :
    ¬ (cleanText (listText cs)).length < 5 := by
  intro h5
  simp [processElement, h5] at h

/-- `determineSectionType` answers `image` only for the `img` tag. -/
theorem determineSectionType_ne_image (tagName text : String) (n : Node)
    (him : (tagName == "img") = false) :
    determineSectionType tagName text n ≠ "image" := by
  simp only [determineSectionType, him, Bool.false_eq_true, if_false]
  repeat first
  | decide
  | split

/-- `processElement` emits type `image` only for the `img` tag. -/
theorem processElement_type_image_tag (t : String) (a : Attrs) (cs : NodeList)
    (prev : List Node) (k : Nat) (s : Section)
    (him : (strToLower t == "img") = false)
    (h : processElement (.elem t a cs) prev k = some s) :
    s.type ≠ "image" := by
  simp only [processElement] at h
  split at h
  · simp at h
  · simp only [him, Bool.false_eq_true, if_false] at h
    split at h
    · simp at h
      subst h
      simp
    · split at h
      · simp at h
        subst h
        simp
      · split at h
        · simp at h
          subst h
          simp
        · cases hfb : List.find? (fun m =>
              match m with
              | .elem t2 _ _ => isHeadingStr (strToLower t2)
              | .text _ => false) prev with
          | some hb =>
            simp only [hfb] at h
            simp at h
            subst h
            exact determineSectionType_ne_image _ _ _ him
          | none =>
            simp only [hfb] at h
            simp at h
            subst h
            exact determineSectionType_ne_image _ _ _ him

/-- Every emitted section arises from `processElement` on some candidate. -/
theorem emitSections_mem_src (l : List (Node × List Node)) (k : Nat) :
    ∀ s ∈ emitSections l k, ∃ pr ∈ l, ∃ k2, processElement pr.1 pr.2 k2 = some s := by
  induction l generalizing k with
  | nil => simp [emitSections]
  | cons p rest ih =>
    obtain ⟨n, prev⟩ := p
    rw [emitSections]
    cases hpe : processElement n prev k with
    | none =>
      intro s hs
      obtain ⟨pr, hpr, k2, hk⟩ := ih k s hs
      exact ⟨pr, List.mem_cons_of_mem _ hpr, k2, hk⟩
    | some s0 =>
      intro s hs
      rcases List.mem_cons.mp hs with rfl | hmem
      · exact ⟨(n, prev), List.mem_cons_self _ _, k, hpe⟩
      · obtain ⟨pr, hpr, k2, hk⟩ := ih (k + 1) s hmem
        exact ⟨pr, List.mem_cons_of_mem _ hpr, k2, hk⟩

mutual
/-- Every element surfaced by the traversal of a valid subtree is valid. -/
theorem elemsWithPrevNode_valid :
    (n : Node) → (prev : List Node) → nodeImgsChildless n = true →
      ∀ pr ∈ elemsWithPrevNode n prev, nodeImgsChildless pr.1 = true
  | .text _, prev, hv => by simp [elemsWithPrevNode]
  | .elem t a cs, prev, hv => by
    intro pr hpr
    simp only [elemsWithPrevNode] at hpr
    rcases List.mem_cons.mp hpr with rfl | hmem
    · exact hv
    · have hcs : listImgsChildless cs = true :=
        (bool_and_split hv).2
      exact elemsWithPrevList_valid cs [] hcs pr hmem

/-- `elemsWithPrevNode_valid` over forests. -/
theorem elemsWithPrevList_valid :
    (l : NodeList) → (prev : List Node) → listImgsChildless l = true →
      ∀ pr ∈ elemsWithPrevList l prev, nodeImgsChildless pr.1 = true
  | .nil, prev, hv => by simp [elemsWithPrevList]
  | .cons n ns, prev, hv => by
    intro pr hpr
    obtain ⟨h1, h2⟩ := bool_and_split hv
    simp only [elemsWithPrevList] at hpr
    rcases List.mem_append.mp hpr with hm | hm
    · exact elemsWithPrevNode_valid n prev h1 pr hm
    · exact elemsWithPrevList_valid ns _ h2 pr hm
end

mutual
/-- Pruning preserves the img-childless parser invariant. -/
theorem pruneNode_validImgs (p : ElemPred) :
    (n : Node) → (m : Node) → nodeImgsChildless n = true → pruneNode p n = some m →
      nodeImgsChildless m = true
  | .text s, m, hv, h => by
    simp only [pruneNode] at h
    injection h with h2
    subst h2
    rfl
  | .elem t a cs, m, hv, h => by
    simp only [pruneNode] at h
    split at h
    · exact absurd h (by simp)
    · injection h with h2
      subst h2
      simp only [nodeImgsChildless] at hv ⊢
      obtain ⟨hc, hsub⟩ := bool_and_split hv
      rw [Bool.and_eq_true]
      refine ⟨?_, pruneList_validImgs p cs hsub⟩
      cases ht2 : (strToLower t != "img") with
      | true => simp [ht2]
      | false =>
        rw [ht2] at hc
        simp at hc
        cases cs with
        | nil => simp [pruneList]
        | cons x xs => simp at hc

/-- `pruneNode_validImgs` over forests. -/
theorem pruneList_validImgs (p : ElemPred) :
    (l : NodeList) → listImgsChildless l = true →
      listImgsChildless (pruneList p l) = true
  | .nil, _ => rfl
  | .cons n ns, hv => by
    obtain ⟨h1, h2⟩ := bool_and_split hv
    simp only [pruneList]
    cases hpn : pruneNode p n with
    | none => exact pruneList_validImgs p ns h2
    | some m =>
      simp only [listImgsChildless]
      rw [pruneNode_validImgs p n m h1 hpn, pruneList_validImgs p ns h2]
      rfl
end

/-- `cheerio.load`'s scaffold preserves the img-childless invariant. -/
theorem load_validImgs (body : NodeList) (hv : listImgsChildless body = true) :
    listImgsChildless (load body) = true := by
  have h1 : (strToLower "html" != "img") = true := by decide
  have h2 : (strToLower "head" != "img") = true := by decide
  have h3 : (strToLower "body" != "img") = true := by decide
  simp [load, listImgsChildless, nodeImgsChildless, hv, h1, h2, h3]

/-- Claim C10: for every input whose `img` elements are childless (the
parser invariant for the void `img` element), the extraction output —
successful sections and the degraded fallback alike — never contains a
section of type `image`: a standalone image has empty text, so it is
dropped by the inclusion filter and the minimum-text guard, and no other
tag is ever typed `image`. -/
theorem no_image_sections (thrown : Option String) (body : NodeList) (src : NlSource)
    (hv : listImgsChildless body = true) :
    ∀ s ∈ outcomeSections (extractContent thrown body src), s.type ≠ "image" := by
  cases thrown with
  | some e =>
    intro s hs
    simp only [extractContent, outcomeSections, createFallbackContent] at hs
    simp at hs
    subst hs
    simp
  | none =>
    intro s hs
    simp only [extractContent, outcomeSections, runPipeline, extractAllContent,
      mergeRelatedSections] at hs
    obtain ⟨pr, hpr, k2, hpe⟩ := emitSections_mem_src _ 1 s hs
    have hvc : listImgsChildless (cleanHtml (load body)) = true :=
      pruneList_validImgs _ _ (pruneList_validImgs _ _
        (pruneList_validImgs _ _ (pruneList_validImgs _ _ (load_validImgs body hv))))
    have hprv : nodeImgsChildless pr.1 = true :=
      elemsWithPrevList_valid _ [] hvc pr (List.mem_of_mem_filter hpr)
    obtain ⟨n, prev⟩ := pr
    cases n with
    | text _ => simp [processElement] at hpe
    | elem t a cs =>
      cases him : (strToLower t == "img") with
      | false => exact processElement_type_image_tag t a cs prev k2 s him hpe
      | true =>
        exfalso
        simp only [nodeImgsChildless] at hprv
        obtain ⟨hc, _⟩ := bool_and_split hprv
        rw [(by simp [bne, him] : (strToLower t != "img") = false)] at hc
        simp at hc
        cases cs with
        | nil => exact processElement_some_not_short t a .nil prev k2 s hpe (by decide)
        | cons x xs => simp at hc

/-- Witness for `no_image_sections` at a concrete image-bearing body. -/
theorem no_image_sections_witness :
    listImgsChildless docWitnessBody = true
    ∧ ∀ s ∈ outcomeSections (extractContent none docWitnessBody srcSrc),
        s.type ≠ "image" :=
  ⟨by decide, no_image_sections none docWitnessBody srcSrc (by decide)⟩

/-! ## Claim C6 — blocked messages return early -/

/-- Claim C6: when the sender email, sender domain, or subject matches an
active block-list entry of the resolved user, the router returns an
early success with no content id, and the database — contents, sources
and subscriptions — is untouched: no source resolution, extraction or
persistence happens for a blocked message. -/
theorem router_blocked_early_return (env : RouterEnv) (db : DB) (msg : InboundMsg)
    (h : ∃ e ∈ env.blockList, e.userId = msg.userId ∧ e.isActive = true ∧
        ((e.blockType = "email" ∧ e.blockValue = msg.fromEmail) ∨
         (e.blockType = "domain" ∧ senderDomainOf msg.fromEmail = some e.blockValue) ∨
         (e.blockType = "keyword" ∧ strToLower e.blockValue = strToLower msg.subject))) :
    processIncomingNewsletter env db msg
      = ({ success := true, contentId := none, approvalStatus := none,
           message := "Email blocked by user settings" }, db) := by
  have hb : isEmailBlocked env.blockList msg.userId msg.fromEmail msg.subject
      (senderDomainOf msg.fromEmail) = true := by
    rw [isEmailBlocked, List.any_eq_true]
    obtain ⟨e, he, hu, ha, hmatch⟩ := h
    refine ⟨e, he, ?_⟩
    simp only [Bool.and_eq_true, Bool.or_eq_true, beq_iff_eq]
    refine ⟨⟨hu, ha⟩, ?_⟩
    rcases hmatch with ⟨h1, h2⟩ | ⟨h1, h2⟩ | ⟨h1, h2⟩
    · exact Or.inl (Or.inl ⟨h1, h2⟩)
    · refine Or.inl (Or.inr ⟨h1, ?_⟩)
      rw [h2]
      simp
    · exact Or.inr ⟨h1, h2⟩
  simp [processIncomingNewsletter, hb]

/-- Witness for `router_blocked_early_return` at a concrete environment
blocking the sender's address. -/
theorem router_blocked_early_return_witness :
    processIncomingNewsletter envBlock dbEmpty msgA
      = ({ success := true, contentId := none, approvalStatus := none,
           message := "Email blocked by user settings" }, dbEmpty) :=
  router_blocked_early_return envBlock dbEmpty msgA (by decide)

/-! ## Claim C5 — failed extraction still persists -/

/-- Source resolution only ever touches the source table. -/
theorem detectNewsletterSource_contents (env : RouterEnv) (db : DB) :
    ((detectNewsletterSource env db).2).contents = db.contents := by
  cases hex : env.existingSource with
  | some s => simp [detectNewsletterSource, hex]
  | none =>
    cases hdet : env.detection with
    | some s2 => simp [detectNewsletterSource, hex, hdet]
    | none => simp [detectNewsletterSource, hex, hdet]

/-- Subscription tracking only ever touches the subscription table. -/
theorem updateSubscriptionTracking_contents (db : DB) (u : Nat)
    (src : Option SourceRec) :
    (updateSubscriptionTracking db u src).contents = db.contents := by
  cases src with
  | none => rfl
  | some s =>
    rw [updateSubscriptionTracking]
    split <;> rfl

/-- Claim C5 (amended): when extraction fails for a non-blocked message,
the router still persists exactly one new content record and returns
success — the message never vanishes — but the record carries an *empty*
sections list together with the raw-content and extraction-failed
markers, `processingStatus:'failed'`, the error message, the original
HTML, and a zero confidence; the degraded fallback object produced by
the facade is not itself persisted. -/
theorem router_persists_raw_on_extraction_failure (env : RouterEnv) (db : DB)
    (msg : InboundMsg) (e : String)
    (hnb : isEmailBlocked env.blockList msg.userId msg.fromEmail msg.subject
        (senderDomainOf msg.fromEmail) = false)
    (ht : env.thrown = some e) :
    ∃ rec0 : ContentRecord,
      (processIncomingNewsletter env db msg).2.contents = db.contents ++ [rec0]
      ∧ rec0.sections = []
      ∧ rec0.processingStatus = "failed"
      ∧ rec0.processingError = some e
      ∧ rec0.mdExtractionFailed = true
      ∧ rec0.mdRawContent = true
      ∧ rec0.originalHtml = msg.htmlRaw
      ∧ rec0.extractionConfidence = 0
      ∧ (processIncomingNewsletter env db msg).1.success = true
      ∧ (processIncomingNewsletter env db msg).1.contentId.isSome = true := by
  have hc2 : (updateSubscriptionTracking (detectNewsletterSource env db).2 msg.userId
      (detectNewsletterSource env db).1).contents = db.contents := by
    rw [updateSubscriptionTracking_contents, detectNewsletterSource_contents]
  simp only [processIncomingNewsletter, hnb, Bool.false_eq_true, if_false, ht,
    extractContent]
  refine ⟨_, by rw [hc2], ?_, ?_, ?_, ?_, ?_, ?_, ?_, ?_, ?_⟩
  all_goals first
  | rfl
  | trivial

/-- Witness for `router_persists_raw_on_extraction_failure` at a concrete
throwing environment. -/
theorem router_persists_raw_on_extraction_failure_witness :
    ∃ rec0 : ContentRecord,
      (processIncomingNewsletter envThrow dbEmpty msgA).2.contents
          = dbEmpty.contents ++ [rec0]
      ∧ rec0.sections = []
      ∧ rec0.processingStatus = "failed"
      ∧ rec0.processingError = some "boom"
      ∧ rec0.mdExtractionFailed = true
      ∧ rec0.mdRawContent = true
      ∧ rec0.originalHtml = msgA.htmlRaw
      ∧ rec0.extractionConfidence = 0
      ∧ (processIncomingNewsletter envThrow dbEmpty msgA).1.success = true
      ∧ (processIncomingNewsletter envThrow dbEmpty msgA).1.contentId.isSome = true :=
  router_persists_raw_on_extraction_failure envThrow dbEmpty msgA "boom"
    (by decide) (by decide)

/-- Claim C5 is false as stated: on a concrete failing message the
persisted record's section list is empty — it is not the degraded
fallback's single raw text block — although the router does return
success. -/
theorem failed_extraction_persists_empty_sections :
    ((processIncomingNewsletter envThrow dbEmpty msgA).2.contents.map
        (fun r => r.sections)) = [[]]
    ∧ (createFallbackContent msgA.body
        { name := extractNewsletterName msgA.fromEmail msgA.subject }).sections.length
        = 1
    ∧ ((processIncomingNewsletter envThrow dbEmpty msgA).2.contents.map
        (fun r => r.sections))
        ≠ [(createFallbackContent msgA.body
            { name := extractNewsletterName msgA.fromEmail msgA.subject }).sections]
    ∧ (processIncomingNewsletter envThrow dbEmpty msgA).1.success = true := by
  refine ⟨by decide, by decide, by decide, by decide⟩

/-- The default-headed first entry of a non-empty list is a member. -/
theorem headD_mem {α : Type} (l : List α) (d : α) (h : l ≠ []) : l.headD d ∈ l := by
  cases l with
  | nil => exact absurd rfl h
  | cons a as => exact List.mem_cons_self a as

/-- Witness for `extractAllContent_order_contiguous` at a concrete
document: its first section is a member and its id matches its ordinal. -/
theorem extractAllContent_order_contiguous_witness :
    ((extractAllContent docWitnessBody).headD
        { id := "", order := 0, type := "", title := "", content := "",
          links := [], images := [] }) ∈ extractAllContent docWitnessBody
    ∧ ((extractAllContent docWitnessBody).headD
        { id := "", order := 0, type := "", title := "", content := "",
          links := [], images := [] }).id
        = "section-" ++ toString ((extractAllContent docWitnessBody).headD
            { id := "", order := 0, type := "", title := "", content := "",
              links := [], images := [] }).order :=
  ⟨headD_mem _ _ (by decide),
   (extractAllContent_order_contiguous docWitnessBody).2 _ (headD_mem _ _ (by decide))⟩

end Sift
